import Mathlib

/-!
# Verification of `slideshowmaker.py`

A shallow embedding of the segment planning and filter-graph assembly logic of
`slideshowmaker.py`, together with theorems settling the specification claims.

Modelling conventions:
* Python `float` values (durations, zoom factors, timestamps) are modelled as
  exact rationals `ℚ`; Python `int` values as `ℤ` (or `ℕ` where the source
  only ever passes a length).
* `datetime` values are modelled as rationals under their total order, since
  the code only compares and returns them.
* `datetime.strptime(value, "%Y:%m:%d %H:%M:%S")` is modelled as an abstract
  partial parse function `parse : String → Option ℚ`; `none` models the
  `ValueError` it raises on malformed input (caught by the bare `except`).
* Filesystem reads (`os.path.exists`, `glob.glob`, reading the order file,
  `os.path.getmtime`, `PIL.Image.open` / `_getexif`) are modelled by an
  explicit `FileSystem` record of pure observation functions.
* Python's `list.sort(key=...)` (Timsort) is a stable sort ascending by key;
  it is embedded as `List.mergeSort`, which is extensionally the same
  function (any two stable sorts by the same key agree).
* The textual ffmpeg filter strings built by f-strings are assembled by
  string concatenation; rendering of numbers uses Lean's `toString`, which
  may differ in formatting from Python's `str` but not in structure.
-/

namespace SlideshowMaker

/-- What the code can observe about one image file on disk:
whether `PIL.Image.open` (and `_getexif()` on the result) succeeds,
the EXIF dictionary items `(tag name, value)` in dict iteration order
(`none` when `_getexif()` returns `None`), and the file's modification
time `os.path.getmtime`. -/
structure ImageFile where
  openOk : Bool
  exif : Option (List (String × String))
  mtime : ℚ

/-- The filesystem observations `slideshowmaker.py` performs:
`os.path.exists`, reading the order file's lines, `glob.glob` on a
pattern, and opening an image (for EXIF/mtime). -/
structure FileSystem where
  pathExists : String → Bool
  readLines : String → List String
  glob : String → List String
  image : String → ImageFile

/-- Model of `os.path.join` for the two-argument uses in the source. -/
def joinPath (dir name : String) : String := dir ++ "/" ++ name

/-- Python's `str.strip()`: remove leading and trailing whitespace. -/
def strip (s : String) : String :=
  String.mk (((s.data.dropWhile Char.isWhitespace).reverse.dropWhile
    Char.isWhitespace).reverse)

/-- The first `(tag, value)` item of the EXIF dictionary, in dict iteration
order, whose tag is `DateTimeOriginal` or `DateTime` — the loop
`for tag_id, value in exif_data.items(): if tag in [...]` of
`get_exif_datetime` (lines 20–24). -/
def findDateTag (items : List (String × String)) : Option (String × String) :=
  items.find? (fun p => p.1 == "DateTimeOriginal" || p.1 == "DateTime")

/-- Embeds `get_exif_datetime` (lines 11–29).  The whole `try` block covers
`Image.open`, `_getexif`, the tag loop and `strptime`; any failure falls
through to the modification-time fallback.  `if exif_data:` skips an empty
dictionary, which coincides here with `findDateTag [] = none`. -/
def get_exif_datetime (parse : String → Option ℚ) (f : ImageFile) : ℚ :=
  if f.openOk then
    match f.exif with
    | some items =>
      match findDateTag items with
      | some tv =>
        match parse tv.2 with
        | some t => t
        | none => f.mtime
      | none => f.mtime
    | none => f.mtime
  else f.mtime

/-- The ordering key used by the sort in `get_image_file_list` (line 49). -/
def orderingKey (fs : FileSystem) (parse : String → Option ℚ) (fp : String) : ℚ :=
  get_exif_datetime parse (fs.image fp)

/-- The glob-gathering loop of `get_image_file_list` (lines 44–47):
`for ext in exts: file_paths.extend(glob.glob(os.path.join(images_dir, ext)))`. -/
def globFiles (fs : FileSystem) (images_dir : String) : List String :=
  ["*.jpg", "*.jpeg", "*.png"].foldl
    (fun acc ext => acc ++ fs.glob (joinPath images_dir ext)) []

/-- Embeds `get_image_file_list` (lines 32–50).  The manifest branch trims each
line, keeps only non-blank ones, joins to `images_dir` and drops paths
that do not exist; the glob branch gathers `*.jpg`, `*.jpeg`, `*.png`
and stably sorts them by `get_exif_datetime`. -/
def get_image_file_list (fs : FileSystem) (parse : String → Option ℚ)
    (images_dir : String) (order_file : Option String) : List String :=
  match order_file with
  | some of =>
    if fs.pathExists of then
      let names := ((fs.readLines of).filter (fun line => strip line != "")).map strip
      let file_paths := names.map (joinPath images_dir)
      file_paths.filter fs.pathExists
    else
      (globFiles fs images_dir).mergeSort
        (fun a b => decide (orderingKey fs parse a ≤ orderingKey fs parse b))
  | none =>
    (globFiles fs images_dir).mergeSort
      (fun a b => decide (orderingKey fs parse a ≤ orderingKey fs parse b))

/-- Python `int()` applied to a float: truncation toward zero. -/
def truncQ (q : ℚ) : ℤ := if 0 ≤ q then ⌊q⌋ else ⌈q⌉

/-- The `pad=` stage appended by `build_ken_burns_filter` when
`border_size > 0` (lines 87–92): output size, x/y placement of the inner
area, and fill color. -/
structure PadPart where
  w : ℤ
  h : ℤ
  x : ℤ
  y : ℤ
  color : String
deriving DecidableEq

/-- The structured content of the filter string built by
`build_ken_burns_filter`: the `zoompan` stage's zoom endpoints, frame
count and output size, plus the optional `pad` stage.  The f-string of the
source renders exactly these fields. -/
structure KenBurnsFilter where
  start_zoom : ℚ
  end_zoom : ℚ
  total_frames : ℤ
  inner_w : ℤ
  inner_h : ℤ
  pad : Option PadPart

/-- Embeds `build_ken_burns_filter` (lines 53–94). -/
def build_ken_burns_filter (duration : ℚ) (fps : ℤ) (start_zoom end_zoom : ℚ)
    (border_size : ℤ) (border_color : String)
    (slideshow_width slideshow_height : ℤ) : KenBurnsFilter :=
  let total_frames := truncQ (duration * fps)
  let inner_w := slideshow_width - 2 * border_size
  let inner_h := slideshow_height - 2 * border_size
  { start_zoom := start_zoom
    end_zoom := end_zoom
    total_frames := total_frames
    inner_w := inner_w
    inner_h := inner_h
    pad :=
      if border_size > 0 then
        some ⟨slideshow_width, slideshow_height, border_size, border_size, border_color⟩
      else
        none }

/-- One planned segment of `generate_ken_burns_segments`: its index, source
image and Ken Burns filter. -/
structure SegmentSpec where
  index : ℕ
  image : String
  filter : KenBurnsFilter

/-- Embeds `generate_ken_burns_segments` (lines 97–148) without the subprocess
side effects: the per-image segment specs (even index zooms in
`1.0 → zoom_factor`, odd index zooms out `zoom_factor → 1.0`) and the
returned `segment_lengths` list (one `duration_per_image` per image). -/
def generate_ken_burns_segments (images : List String) (duration_per_image : ℚ)
    (fps : ℤ) (zoom_factor : ℚ) (border_size : ℤ) (border_color : String)
    (slideshow_width slideshow_height : ℤ) : List SegmentSpec × List ℚ :=
  ( images.enum.map (fun p =>
      let z : ℚ × ℚ := if p.1 % 2 = 0 then (1, zoom_factor) else (zoom_factor, 1)
      { index := p.1
        image := p.2
        filter := build_ken_burns_filter duration_per_image fps z.1 z.2
          border_size border_color slideshow_width slideshow_height }),
    images.map (fun _ => duration_per_image) )

/-- One iteration of the `build_xfade_filter` loop (lines 170–183): the
left input label, the right input index `i`, the produced output label
`[vi]` and the computed `offset`. -/
structure XfadeStep where
  leftLabel : String
  rightIndex : ℕ
  outLabel : String
  offset : ℚ
deriving DecidableEq

/-- The label `[vi]`. -/
def vLabel (i : ℕ) : String := "[v" ++ toString i ++ "]"

/-- The loop body of `build_xfade_filter` over the remaining indices of
`range(1, segment_count)`, threading `current_label` and `total_time`.
`segment_lengths[i]` is Python list indexing, so an out-of-range index is
an `IndexError`, modelled by `none`. -/
def xfadeSteps (segment_lengths : List ℚ) (crossfade_duration : ℚ) :
    List ℕ → String → ℚ → Option (List XfadeStep)
  | [], _, _ => some []
  | i :: rest, current_label, total_time => do
    let d ← segment_lengths[i]?
    let step : XfadeStep :=
      { leftLabel := current_label
        rightIndex := i
        outLabel := vLabel i
        offset := total_time - crossfade_duration }
    let steps ← xfadeSteps segment_lengths crossfade_duration rest (vLabel i)
      (total_time + d - crossfade_duration)
    return step :: steps

/-- The f-string of line 173–177 rendering one step. -/
def xfadeLine (transition : String) (crossfade_duration : ℚ) (s : XfadeStep) : String :=
  s.leftLabel ++ "[" ++ toString s.rightIndex ++ ":v] xfade=transition=" ++ transition ++
  ":duration=" ++ toString crossfade_duration ++ ":offset=" ++ toString s.offset ++
  s.outLabel

/-- Embeds `build_xfade_filter` (lines 151–187).  Returns the `filter_complex`
string and the final output label; `none` models an uncaught
`IndexError` from `segment_lengths[0]` or `segment_lengths[i]`. -/
def build_xfade_filter (segment_count : ℕ) (segment_lengths : List ℚ)
    (crossfade_duration : ℚ) (transition : String) : Option (String × String) :=
  if segment_count ≤ 1 then
    some ("", "[0:v]")
  else do
    let total_time ← segment_lengths[0]?
    let steps ← xfadeSteps segment_lengths crossfade_duration
      (List.range' 1 (segment_count - 1)) "[0:v]" total_time
    let filter_str := String.intercalate "; " (steps.map (xfadeLine transition crossfade_duration))
    let final_label := steps.foldl (fun _ s => s.outLabel) "[0:v]"
    return (filter_str, final_label)

/-- The externally observable actions of one `create_slideshow` run, in
order: per-segment ffmpeg renders (`subprocess.run` in
`generate_ken_burns_segments`), the single-segment `os.rename`, the final
merge ffmpeg call with `-filter_complex`, the `-c:v copy` call of the
empty-filter branch, and the `No images found` report. -/
inductive Event where
  | renderSegment (index : ℕ) (image : String)
  | renameToOutput (output : String)
  | mergeToOutput (filterStr : String) (mapLabel : String) (output : String)
  | copyToOutput (output : String)
  | reportNoImages (dir : String)
deriving DecidableEq

/-- Embeds `create_slideshow` (lines 190–268) as the trace of its external
actions.  `none` models an uncaught exception (only possible via
`build_xfade_filter` indexing).  The source contains no validation of
`crossfade_duration` against the segment durations: the trace is built
directly from sequencing, rendering, and the single/multi-segment split. -/
def create_slideshow (fs : FileSystem) (parse : String → Option ℚ)
    (images_dir : String) (output_file : String) (order_file : Option String)
    (duration_per_image : ℚ) (fps : ℤ) (zoom_factor : ℚ) (border_size : ℤ)
    (border_color : String) (slideshow_width slideshow_height : ℤ)
    (crossfade_duration : ℚ) (crossfade_transition : String) :
    Option (List Event) :=
  let images := get_image_file_list fs parse images_dir order_file
  if images = [] then
    some [Event.reportNoImages images_dir]
  else
    let sg := generate_ken_burns_segments images duration_per_image fps zoom_factor
      border_size border_color slideshow_width slideshow_height
    let renders := sg.1.map (fun s => Event.renderSegment s.index s.image)
    if images.length = 1 then
      some (renders ++ [Event.renameToOutput output_file])
    else
      match build_xfade_filter images.length sg.2 crossfade_duration crossfade_transition with
      | none => none
      | some fl =>
        if fl.1 != "" then
          some (renders ++ [Event.mergeToOutput fl.1 fl.2 output_file])
        else
          some (renders ++ [Event.copyToOutput output_file])

/-- Spec-side closed form for the offset of transition step `i`
(`i = 1 .. n−1`): the sum of the first `i` segment durations minus
`i · crossfade_duration`. -/
def offsetsSpec (d : List ℚ) (c : ℚ) (i : ℕ) : ℚ := (d.take i).sum - i * c

/-- Spec-side description of the ordering timestamp, as amended: the value of
the *first* tag in the EXIF dictionary's iteration order that is
`DateTimeOriginal` or `DateTime` (no priority between the two), parsed; the
file's modification time when the image cannot be opened, metadata is absent,
no such tag occurs, or parsing fails. -/
def orderingTimestampSpec (parse : String → Option ℚ) (f : ImageFile) : ℚ :=
  let md := (if f.openOk then f.exif else none).bind
    (fun items =>
      (items.filter (fun p => p.1 == "DateTimeOriginal" || p.1 == "DateTime")).head?)
  match md.bind (fun tv => parse tv.2) with
  | some t => t
  | none => f.mtime

/-! ### Concrete fixtures used by counterexamples and witnesses -/

/-- An image file with no usable EXIF data, only a modification time. -/
def mtimeOnly (t : ℚ) : ImageFile := { openOk := false, exif := none, mtime := t }

/-- A parse function that recognizes nothing. -/
def noParse : String → Option ℚ := fun _ => none

/-- A directory `imgs` holding two jpg files and no manifest. -/
def twoImageFS : FileSystem :=
  { pathExists := fun p => p == "imgs/a.jpg" || p == "imgs/b.jpg"
    readLines := fun _ => []
    glob := fun pat => if pat == "imgs/*.jpg" then ["imgs/a.jpg", "imgs/b.jpg"] else []
    image := fun p => if p == "imgs/a.jpg" then mtimeOnly 1 else mtimeOnly 2 }

/-- A directory `imgs` holding exactly one png file. -/
def oneImageFS : FileSystem :=
  { pathExists := fun _ => false
    readLines := fun _ => []
    glob := fun pat => if pat == "imgs/*.png" then ["imgs/only.png"] else []
    image := fun _ => mtimeOnly 0 }

/-- A filesystem with no images anywhere. -/
def emptyFS : FileSystem :=
  { pathExists := fun _ => false
    readLines := fun _ => []
    glob := fun _ => []
    image := fun _ => mtimeOnly 0 }

/-- A filesystem with a manifest `order.txt` (containing padded names, a blank
line, and one entry missing on disk) and two existing image files. -/
def manifestFS : FileSystem :=
  { pathExists := fun p => p == "order.txt" || p == "imgs/x.jpg" || p == "imgs/y.jpg"
    readLines := fun p =>
      if p == "order.txt" then ["  y.jpg", "", "x.jpg  ", "missing.jpg"] else []
    glob := fun _ => []
    image := fun _ => mtimeOnly 0 }

/-- A parse function for the two timestamp strings of `bothTagsImage`. -/
def exifParse : String → Option ℚ := fun s =>
  if s == "2020:01:01 00:00:00" then some 100
  else if s == "2021:06:15 12:00:00" then some 200
  else none

/-- An image whose EXIF dictionary holds `DateTime` *before*
`DateTimeOriginal` in iteration order, with distinct parseable values. -/
def bothTagsImage : ImageFile :=
  { openOk := true
    exif := some [("DateTime", "2020:01:01 00:00:00"),
                  ("DateTimeOriginal", "2021:06:15 12:00:00")]
    mtime := 0 }

/-! ## Theorems -/

/-- C9: `build_ken_burns_filter` renders the motion stage to an inner area of
exactly `(slideshow_width − 2·border_size) × (slideshow_height − 2·border_size)`,
and the filter carries a pad stage — full canvas, inner area placed at
`(border_size, border_size)` (hence centered), filled with `border_color` —
exactly when `border_size > 0`; when `border_size = 0` the pad stage is absent
and the filter is the motion stage alone. -/
theorem ken_burns_inner_area_and_pad (duration : ℚ) (fps : ℤ) (start_zoom end_zoom : ℚ)
    (border_size : ℤ) (border_color : String) (w h : ℤ) :
    (build_ken_burns_filter duration fps start_zoom end_zoom border_size border_color w h).inner_w
        = w - 2 * border_size ∧
    (build_ken_burns_filter duration fps start_zoom end_zoom border_size border_color w h).inner_h
        = h - 2 * border_size ∧
    (build_ken_burns_filter duration fps start_zoom end_zoom border_size border_color w h).pad
        = if border_size > 0 then some ⟨w, h, border_size, border_size, border_color⟩
          else none := by
  exact ⟨rfl, rfl, rfl⟩

/-- C3: in `generate_ken_burns_segments`, segment `i` zooms in
(`1.0 → zoom_factor`) when `i` is even and zooms out (`zoom_factor → 1.0`)
when `i` is odd; in particular index `0` always zooms in. -/
theorem zoom_direction_alternates (images : List String) (duration : ℚ) (fps : ℤ)
    (zoom_factor : ℚ) (border_size : ℤ) (border_color : String) (w h : ℤ) (i : ℕ) :
    ((generate_ken_burns_segments images duration fps zoom_factor border_size
        border_color w h).1[i]?).map
        (fun s => (s.filter.start_zoom, s.filter.end_zoom))
      = if i < images.length then
          some (if i % 2 = 0 then ((1 : ℚ), zoom_factor) else (zoom_factor, (1 : ℚ)))
        else none := by
  simp only [generate_ken_burns_segments, List.getElem?_map, List.enum_eq_enumFrom,
    List.getElem?_enumFrom, Nat.zero_add]
  rcases Nat.lt_or_ge i images.length with hi | hi
  · rw [List.getElem?_eq_getElem hi]
    simp only [Option.map_some, if_pos hi]
    rcases Nat.even_or_odd i with he | ho
    · have h2 : i % 2 = 0 := Nat.even_iff.mp he
      simp [h2, build_ken_burns_filter]
    · have h2 : i % 2 = 1 := Nat.odd_iff.mp ho
      simp [h2, build_ken_burns_filter]
  · rw [List.getElem?_eq_none hi]
    simp [Nat.not_lt.mpr hi]

/-- C10: for `segment_count ≤ 1` (including `0`), `build_xfade_filter` returns
the empty filter string and final label `[0:v]` without ever indexing into
`segment_lengths`, hence never fails even on the empty list. -/
theorem build_xfade_filter_degenerate (segment_count : ℕ) (segment_lengths : List ℚ)
    (crossfade_duration : ℚ) (transition : String) (h : segment_count ≤ 1) :
    build_xfade_filter segment_count segment_lengths crossfade_duration transition
      = some ("", "[0:v]") := by
  simp [build_xfade_filter, h]

/-- Witness for `build_xfade_filter_degenerate`: the empty segment list. -/
theorem build_xfade_filter_degenerate_witness :
    build_xfade_filter 0 [] 1 "fade" = some ("", "[0:v]") :=
  build_xfade_filter_degenerate 0 [] 1 "fade" (by decide)

/-- The `build_xfade_filter` loop over `range' a n` succeeds whenever all the
indices are in range, and the offset of its `j`-th emitted step is the running
total at entry plus the durations consumed so far, minus `(j+1)` crossfades. -/
theorem xfadeSteps_range'_eq (d : List ℚ) (c : ℚ) :
    ∀ (n a : ℕ) (cur : String) (total : ℚ), a + n ≤ d.length →
    ∃ steps, xfadeSteps d c (List.range' a n) cur total = some steps ∧
      steps.map XfadeStep.offset
        = (List.range n).map
            (fun j => total + ((d.drop a).take j).sum - c - j * c) := by
  intro n
  induction n with
  | zero =>
    intro a cur total _
    exact ⟨[], rfl, rfl⟩
  | succ n ih =>
    intro a cur total hle
    have ha : a < d.length := by omega
    obtain ⟨steps, hs, hmap⟩ := ih (a + 1) (vLabel a) (total + d[a] - c) (by omega)
    refine ⟨⟨cur, a, vLabel a, total - c⟩ :: steps, ?_, ?_⟩
    · rw [List.range'_succ]
      simp [xfadeSteps, List.getElem?_eq_getElem ha, hs]
    · rw [List.range_succ_eq_map]
      simp only [List.map_cons, List.map_map, hmap]
      rw [List.drop_eq_getElem_cons ha]
      congr 1
      · simp
      · congr 1
        funext j
        simp only [Function.comp_apply, List.take_succ_cons, List.sum_cons]
        push_cast
        ring

/-- C1: for `n ≥ 2` segments with durations `d0 :: d1 :: rest` and crossfade
`c`, `build_xfade_filter` emits exactly `n − 1` transition steps, and the
offset of step `i` (`i = 1 .. n−1`) equals the running total before the step
minus `c`; solving the recurrence `running += d[i] − c`, this is
`offsetsSpec d c i = (sum of d[0..i−1]) − i·c`.  In particular for three
segments of duration `3` and `c = 1` the offsets are `2` then `4`. -/
theorem build_xfade_offset_invariant (d0 d1 : ℚ) (rest : List ℚ) (c : ℚ)
    (transition : String) :
    (∃ steps : List XfadeStep,
      xfadeSteps (d0 :: d1 :: rest) c (List.range' 1 (rest.length + 1)) "[0:v]" d0
          = some steps ∧
      steps.length = rest.length + 1 ∧
      steps.map XfadeStep.offset
        = (List.range (rest.length + 1)).map
            (fun j => offsetsSpec (d0 :: d1 :: rest) c (j + 1)) ∧
      ∃ final_label,
        build_xfade_filter (rest.length + 2) (d0 :: d1 :: rest) c transition
          = some (String.intercalate "; "
              (steps.map (xfadeLine transition c)), final_label)) ∧
    offsetsSpec [3, 3, 3] 1 1 = 2 ∧ offsetsSpec [3, 3, 3] 1 2 = 4 := by
  refine ⟨?_, by norm_num [offsetsSpec], by norm_num [offsetsSpec]⟩
  obtain ⟨steps, hs, hmap⟩ :=
    xfadeSteps_range'_eq (d0 :: d1 :: rest) c (rest.length + 1) 1 "[0:v]" d0
      (by simp; omega)
  refine ⟨steps, hs, ?_, ?_, ?_⟩
  · have := congrArg List.length hmap
    simpa using this
  · rw [hmap]
    congr 1
    funext j
    simp only [List.drop_succ_cons, List.drop_zero, offsetsSpec, List.take_succ_cons,
      List.sum_cons]
    push_cast
    ring
  · refine ⟨steps.foldl (fun _ s => s.outLabel) "[0:v]", ?_⟩
    have hn : ¬ rest.length + 2 ≤ 1 := by omega
    simp [build_xfade_filter, hn, hs]

/-- C4: when a manifest is supplied and exists, `get_image_file_list` returns
exactly the manifest's lines in order — trimmed, blanks dropped, joined to the
images directory, entries missing on disk dropped — and applies no sorting, so
when every joined entry exists the output equals manifest order. -/
theorem manifest_order_authoritative (fs : FileSystem) (parse : String → Option ℚ)
    (images_dir mpath : String) (h : fs.pathExists mpath = true) :
    get_image_file_list fs parse images_dir (some mpath)
      = ((((fs.readLines mpath).map strip).filter (fun n => n != "")).map
          (joinPath images_dir)).filter fs.pathExists ∧
    ((∀ p ∈ (((fs.readLines mpath).map strip).filter (fun n => n != "")).map
          (joinPath images_dir), fs.pathExists p = true) →
      get_image_file_list fs parse images_dir (some mpath)
        = (((fs.readLines mpath).map strip).filter (fun n => n != "")).map
            (joinPath images_dir)) := by
  have inner : ((fs.readLines mpath).filter (fun line => strip line != "")).map strip
      = ((fs.readLines mpath).map strip).filter (fun n => n != "") := by
    rw [List.filter_map]
    rfl
  have key : get_image_file_list fs parse images_dir (some mpath)
      = ((((fs.readLines mpath).map strip).filter (fun n => n != "")).map
          (joinPath images_dir)).filter fs.pathExists := by
    simp only [get_image_file_list, h, if_pos]
    rw [inner]
  refine ⟨key, fun hall => ?_⟩
  rw [key, List.filter_eq_self.mpr hall]

/-- Witness for `manifest_order_authoritative` at the concrete `manifestFS`:
the manifest names `y.jpg` (padded), a blank line, `x.jpg` (padded) and a
missing file, and the output is `imgs/y.jpg, imgs/x.jpg` in manifest order. -/
theorem manifest_order_authoritative_witness :
    manifestFS.pathExists "order.txt" = true ∧
    get_image_file_list manifestFS noParse "imgs" (some "order.txt")
      = ["imgs/y.jpg", "imgs/x.jpg"] := by
  refine ⟨by decide, ?_⟩
  have := (manifest_order_authoritative manifestFS noParse "imgs" "order.txt"
    (by decide)).1
  rw [this]
  decide

/-- C5: without a manifest, `get_image_file_list` returns a permutation of the
glob-gathered `*.jpg`, `*.jpeg`, `*.png` files, sorted non-decreasing by
`get_exif_datetime`, and the sort is stable: for each timestamp value the
files carrying it keep their glob enumeration order. -/
theorem glob_sorted_and_stable (fs : FileSystem) (parse : String → Option ℚ)
    (images_dir : String) :
    (get_image_file_list fs parse images_dir none).Perm (globFiles fs images_dir) ∧
    (get_image_file_list fs parse images_dir none).Pairwise
      (fun a b => orderingKey fs parse a ≤ orderingKey fs parse b) ∧
    ∀ t : ℚ,
      (get_image_file_list fs parse images_dir none).filter
          (fun p => decide (orderingKey fs parse p = t))
        = (globFiles fs images_dir).filter
            (fun p => decide (orderingKey fs parse p = t)) := by
  have htrans : ∀ a b c' : String,
      (fun a b => decide (orderingKey fs parse a ≤ orderingKey fs parse b)) a b →
      (fun a b => decide (orderingKey fs parse a ≤ orderingKey fs parse b)) b c' →
      (fun a b => decide (orderingKey fs parse a ≤ orderingKey fs parse b)) a c' := by
    intro a b c' hab hbc
    simp only [decide_eq_true_eq] at hab hbc ⊢
    exact le_trans hab hbc
  have htotal : ∀ a b : String,
      ((fun a b => decide (orderingKey fs parse a ≤ orderingKey fs parse b)) a b ||
       (fun a b => decide (orderingKey fs parse a ≤ orderingKey fs parse b)) b a) := by
    intro a b
    simpa using le_total (orderingKey fs parse a) (orderingKey fs parse b)
  refine ⟨List.mergeSort_perm _ _, ?_, ?_⟩
  · have hp := List.sorted_mergeSort htrans htotal (globFiles fs images_dir)
    exact hp.imp (fun hab => by simpa using hab)
  · intro t
    have hpair : ((globFiles fs images_dir).filter
        (fun p => decide (orderingKey fs parse p = t))).Pairwise
        (fun a b => decide (orderingKey fs parse a ≤ orderingKey fs parse b)) := by
      apply List.pairwise_of_forall_mem_list
      intro a ha b hb
      have ha' := (List.mem_filter.mp ha).2
      have hb' := (List.mem_filter.mp hb).2
      simp only [decide_eq_true_eq] at ha' hb' ⊢
      rw [ha', hb']
    have hsub := List.sublist_mergeSort htrans htotal hpair
      (List.filter_sublist (globFiles fs images_dir))
    have hsub2 := hsub.filter (fun p => decide (orderingKey fs parse p = t))
    rw [List.filter_filter] at hsub2
    have hself : (fun a => decide (orderingKey fs parse a = t) &&
        decide (orderingKey fs parse a = t))
        = (fun p => decide (orderingKey fs parse p = t)) := by
      funext a
      cases decide (orderingKey fs parse a = t) <;> rfl
    rw [hself] at hsub2
    have hperm := (List.mergeSort_perm (globFiles fs images_dir)
      (fun a b => decide (orderingKey fs parse a ≤ orderingKey fs parse b))).filter
      (fun p => decide (orderingKey fs parse p = t))
    exact (hsub2.eq_of_length hperm.length_eq.symm).symm

/-- C6 (amended): `get_exif_datetime` is total and returns the parsed value of
the *first* tag in EXIF dictionary iteration order that is `DateTimeOriginal`
or `DateTime` — no priority between the two — falling back to the file's
modification time when the image cannot be opened, metadata is absent, no
matching tag occurs, or parsing fails. -/
theorem exif_first_matching_tag (parse : String → Option ℚ) (f : ImageFile) :
    get_exif_datetime parse f = orderingTimestampSpec parse f := by
  rcases f with ⟨ok, exif, mtime⟩
  cases ok
  · rfl
  · cases exif with
    | none => rfl
    | some items =>
      simp only [get_exif_datetime, orderingTimestampSpec, findDateTag, if_true,
        Option.some_bind, List.filter_head?]
      cases items.find? (fun p => p.1 == "DateTimeOriginal" || p.1 == "DateTime") with
      | none => rfl
      | some tv => cases parse tv.2 <;> rfl

/-- Counterexample to C6 as stated: an image carrying both tags, with
`DateTime` earlier in dict iteration order, is timestamped by `DateTime`
(value `100`), not by `DateTimeOriginal` (value `200`). -/
theorem exif_priority_counterexample :
    get_exif_datetime exifParse bothTagsImage = 100 ∧
    exifParse "2021:06:15 12:00:00" = some 200 ∧
    (100 : ℚ) ≠ 200 := by
  refine ⟨by decide, by decide, by norm_num⟩

/-- Totality: `build_xfade_filter` succeeds whenever it is called with the actual length
of the duration list and at least two segments. -/
theorem build_xfade_filter_total (d : List ℚ) (c : ℚ) (tr : String)
    (h : 2 ≤ d.length) :
    ∃ r, build_xfade_filter d.length d c tr = some r := by
  have h0 : 0 < d.length := by omega
  obtain ⟨steps, hs, -⟩ :=
    xfadeSteps_range'_eq d c (d.length - 1) 1 "[0:v]" d[0] (by omega)
  have hn : ¬ d.length ≤ 1 := by omega
  refine ⟨(String.intercalate "; " (steps.map (xfadeLine tr c)),
    steps.foldl (fun _ s => s.outLabel) "[0:v]"), ?_⟩
  simp [build_xfade_filter, hn, List.getElem?_eq_getElem h0, hs]

/-- Whenever the sequencer resolves a nonempty image list, `create_slideshow`
produces a trace consisting of one render event per planned segment followed
by exactly one finalization event. -/
theorem create_slideshow_trace (fs : FileSystem) (parse : String → Option ℚ)
    (images_dir output_file : String) (order_file : Option String)
    (d : ℚ) (fps : ℤ) (zf : ℚ) (bs : ℤ) (bc : String) (w h : ℤ)
    (c : ℚ) (tr : String)
    (hne : get_image_file_list fs parse images_dir order_file ≠ []) :
    ∃ e : Event,
      create_slideshow fs parse images_dir output_file order_file d fps zf bs bc
          w h c tr
        = some ((generate_ken_burns_segments
            (get_image_file_list fs parse images_dir order_file) d fps zf bs bc
              w h).1.map (fun s => Event.renderSegment s.index s.image) ++ [e]) := by
  by_cases h1 : (get_image_file_list fs parse images_dir order_file).length = 1
  · refine ⟨Event.renameToOutput output_file, ?_⟩
    simp only [create_slideshow]
    rw [if_neg hne, if_pos h1]
  · have h2 : 2 ≤ (get_image_file_list fs parse images_dir order_file).length := by
      have h0 : (get_image_file_list fs parse images_dir order_file).length ≠ 0 := by
        simpa [List.length_eq_zero] using hne
      omega
    obtain ⟨r, hr⟩ := build_xfade_filter_total
      ((get_image_file_list fs parse images_dir order_file).map (fun _ => d)) c tr
      (by simpa using h2)
    rw [List.length_map] at hr
    have hsg2 : (generate_ken_burns_segments
        (get_image_file_list fs parse images_dir order_file) d fps zf bs bc w h).2
        = (get_image_file_list fs parse images_dir order_file).map (fun _ => d) := rfl
    by_cases hf : r.1 = ""
    · refine ⟨Event.copyToOutput output_file, ?_⟩
      simp only [create_slideshow]
      rw [if_neg hne, if_neg h1, hsg2, hr]
      simp [hf]
    · refine ⟨Event.mergeToOutput r.1 r.2 output_file, ?_⟩
      simp only [create_slideshow]
      rw [if_neg hne, if_neg h1, hsg2, hr]
      simp [hf]

/-- C2 (amended): `create_slideshow` performs no validation of
`crossfade_duration` against the segment durations — there is no
`ConfigurationError` path.  For every run whose sequenced image list contains
an image at index `i` (in particular also when `crossfade_duration` is at
least the minimum segment duration), a rendering-engine invocation for that
segment occurs. -/
theorem create_slideshow_always_renders (fs : FileSystem) (parse : String → Option ℚ)
    (images_dir output_file : String) (order_file : Option String)
    (d : ℚ) (fps : ℤ) (zf : ℚ) (bs : ℤ) (bc : String) (w h : ℤ)
    (c : ℚ) (tr : String) (i : ℕ) (img : String)
    (hi : (get_image_file_list fs parse images_dir order_file)[i]? = some img) :
    Event.renderSegment i img ∈
      (create_slideshow fs parse images_dir output_file order_file d fps zf bs bc
        w h c tr).getD [] := by
  have hlen : i < (get_image_file_list fs parse images_dir order_file).length := by
    rcases List.getElem?_eq_some_iff.mp hi with ⟨hh, -⟩
    exact hh
  have hne : get_image_file_list fs parse images_dir order_file ≠ [] := by
    intro h0
    rw [h0] at hlen
    simp at hlen
  have hmem : Event.renderSegment i img ∈
      (generate_ken_burns_segments (get_image_file_list fs parse images_dir order_file)
        d fps zf bs bc w h).1.map (fun s => Event.renderSegment s.index s.image) := by
    apply List.getElem?_mem (n := i)
    simp [generate_ken_burns_segments, List.enum_eq_enumFrom, List.getElem?_enumFrom, hi]
  obtain ⟨e, he⟩ := create_slideshow_trace fs parse images_dir output_file order_file
    d fps zf bs bc w h c tr hne
  rw [he]
  exact List.mem_append_left _ hmem

/-- Counterexample to C2 as stated: with two one-second segments and a
two-second crossfade (`crossfade_duration ≥ min(segment durations)`), the run
is not rejected — segment render invocations still occur. -/
theorem no_config_rejection_counterexample :
    (generate_ken_burns_segments (get_image_file_list twoImageFS noParse "imgs" none)
        1 25 (11/10) 0 "black" 1920 1080).2 = [1, 1] ∧
    (1 : ℚ) ≤ 2 ∧
    Event.renderSegment 0 "imgs/a.jpg" ∈
      (create_slideshow twoImageFS noParse "imgs" "out.mp4" none 1 25 (11/10) 0
        "black" 1920 1080 2 "fade").getD [] := by
  have himg : get_image_file_list twoImageFS noParse "imgs" none
      = ["imgs/a.jpg", "imgs/b.jpg"] :=
    calc get_image_file_list twoImageFS noParse "imgs" none
        = (globFiles twoImageFS "imgs").mergeSort
            (fun a b => decide (orderingKey twoImageFS noParse a
              ≤ orderingKey twoImageFS noParse b)) := rfl
      _ = globFiles twoImageFS "imgs" := List.mergeSort_of_sorted (by decide)
      _ = ["imgs/a.jpg", "imgs/b.jpg"] := by decide
  refine ⟨by rw [himg]; decide, by norm_num, ?_⟩
  have hne : get_image_file_list twoImageFS noParse "imgs" none ≠ [] := by
    rw [himg]
    decide
  obtain ⟨e, he⟩ := create_slideshow_trace twoImageFS noParse "imgs" "out.mp4" none
    1 25 (11/10) 0 "black" 1920 1080 2 "fade" hne
  rw [he, himg]
  apply List.mem_append_left
  decide

/-- Witness for `create_slideshow_always_renders` on a concrete two-image
directory. -/
theorem create_slideshow_always_renders_witness :
    (get_image_file_list twoImageFS noParse "imgs" none)[0]? = some "imgs/a.jpg" ∧
    Event.renderSegment 0 "imgs/a.jpg" ∈
      (create_slideshow twoImageFS noParse "imgs" "out.mp4" none 1 25 (11/10) 0
        "black" 1920 1080 (1/2) "fade").getD [] := by
  have himg : get_image_file_list twoImageFS noParse "imgs" none
      = ["imgs/a.jpg", "imgs/b.jpg"] :=
    calc get_image_file_list twoImageFS noParse "imgs" none
        = (globFiles twoImageFS "imgs").mergeSort
            (fun a b => decide (orderingKey twoImageFS noParse a
              ≤ orderingKey twoImageFS noParse b)) := rfl
      _ = globFiles twoImageFS "imgs" := List.mergeSort_of_sorted (by decide)
      _ = ["imgs/a.jpg", "imgs/b.jpg"] := by decide
  refine ⟨by rw [himg]; rfl, ?_⟩
  exact create_slideshow_always_renders twoImageFS noParse "imgs" "out.mp4" none
    1 25 (11/10) 0 "black" 1920 1080 (1/2) "fade" 0 "imgs/a.jpg" (by rw [himg]; rfl)

/-- C7: when the sequencer resolves exactly one image, `create_slideshow`
renders the single segment and renames it to the output path; no merge
invocation occurs and the transition planner contributes nothing to the
trace. -/
theorem single_segment_renamed (fs : FileSystem) (parse : String → Option ℚ)
    (images_dir output_file : String) (order_file : Option String)
    (d : ℚ) (fps : ℤ) (zf : ℚ) (bs : ℤ) (bc : String) (w h : ℤ)
    (c : ℚ) (tr : String) (img : String)
    (himg : get_image_file_list fs parse images_dir order_file = [img]) :
    create_slideshow fs parse images_dir output_file order_file d fps zf bs bc
        w h c tr
      = some [Event.renderSegment 0 img, Event.renameToOutput output_file] ∧
    ∀ fstr lbl out, Event.mergeToOutput fstr lbl out
      ∉ [Event.renderSegment 0 img, Event.renameToOutput output_file] := by
  constructor
  · simp [create_slideshow, himg, generate_ken_burns_segments, List.enum_eq_enumFrom]
  · intro fstr lbl out
    simp

/-- Witness for `single_segment_renamed` on a concrete one-image directory. -/
theorem single_segment_renamed_witness :
    get_image_file_list oneImageFS noParse "imgs" none = ["imgs/only.png"] ∧
    create_slideshow oneImageFS noParse "imgs" "out.mp4" none 3 25 (11/10) 0
        "black" 1920 1080 1 "fade"
      = some [Event.renderSegment 0 "imgs/only.png",
              Event.renameToOutput "out.mp4"] := by
  have himg : get_image_file_list oneImageFS noParse "imgs" none
      = ["imgs/only.png"] :=
    calc get_image_file_list oneImageFS noParse "imgs" none
        = (globFiles oneImageFS "imgs").mergeSort
            (fun a b => decide (orderingKey oneImageFS noParse a
              ≤ orderingKey oneImageFS noParse b)) := rfl
      _ = globFiles oneImageFS "imgs" := List.mergeSort_of_sorted (by decide)
      _ = ["imgs/only.png"] := by decide
  exact ⟨himg, (single_segment_renamed oneImageFS noParse "imgs" "out.mp4" none
    3 25 (11/10) 0 "black" 1920 1080 1 "fade" "imgs/only.png" himg).1⟩

/-- C8: when the sequencer resolves an empty image list, the run reports
"no images found" and ends as a no-op: no exception (the result is `some`),
and the trace holds no render, rename, merge or copy event — so no rendering
invocation happens and no output file is written. -/
theorem empty_images_noop (fs : FileSystem) (parse : String → Option ℚ)
    (images_dir output_file : String) (order_file : Option String)
    (d : ℚ) (fps : ℤ) (zf : ℚ) (bs : ℤ) (bc : String) (w h : ℤ)
    (c : ℚ) (tr : String)
    (hempty : get_image_file_list fs parse images_dir order_file = []) :
    create_slideshow fs parse images_dir output_file order_file d fps zf bs bc
        w h c tr
      = some [Event.reportNoImages images_dir] ∧
    (∀ i img, Event.renderSegment i img ∉ [Event.reportNoImages images_dir]) ∧
    (∀ out, Event.renameToOutput out ∉ [Event.reportNoImages images_dir]) ∧
    (∀ fstr lbl out, Event.mergeToOutput fstr lbl out
        ∉ [Event.reportNoImages images_dir]) ∧
    (∀ out, Event.copyToOutput out ∉ [Event.reportNoImages images_dir]) := by
  refine ⟨by simp [create_slideshow, hempty], ?_, ?_, ?_, ?_⟩ <;> intros <;> simp

/-- Witness for `empty_images_noop` on a filesystem with no images. -/
theorem empty_images_noop_witness :
    get_image_file_list emptyFS noParse "imgs" none = [] ∧
    create_slideshow emptyFS noParse "imgs" "out.mp4" none 3 25 (11/10) 0
        "black" 1920 1080 1 "fade"
      = some [Event.reportNoImages "imgs"] := by
  have hempty : get_image_file_list emptyFS noParse "imgs" none = [] :=
    calc get_image_file_list emptyFS noParse "imgs" none
        = (globFiles emptyFS "imgs").mergeSort
            (fun a b => decide (orderingKey emptyFS noParse a
              ≤ orderingKey emptyFS noParse b)) := rfl
      _ = globFiles emptyFS "imgs" := List.mergeSort_of_sorted (by decide)
      _ = [] := by decide
  exact ⟨hempty, (empty_images_noop emptyFS noParse "imgs" "out.mp4" none
    3 25 (11/10) 0 "black" 1920 1080 1 "fade" hempty).1⟩

end SlideshowMaker
